import Mathlib

/-!
# SPC Campus Connect — verification of the policy core

Shallow embedding of the role-resolution, registration, approval-workflow,
post and comment logic of the SPC Campus Connect pages
(`LandingPage.jsx`, `SuperAdminDashboard.jsx`, the admin panel,
the dashboard feed, `Archive.jsx` and the post-detail page).

The remote store is modelled as lists of rows per collection; every
single-row query (`.single()` / `.maybeSingle()`) is modelled by
`filterOne`, which yields the row when the filter matches exactly one
row and nothing otherwise (the pages treat both the empty result and
the multiple-row error as absence of a row).  Row ordering clauses
(`order by created_at` and the like) are presentational and are not
modelled; no claim depends on them.
-/

namespace SPC

/-- A program-head profile row of the `super_admins` collection
(`LandingPage.jsx` insert: id, name, email, department; no approval flag). -/
structure SuperAdminRow where
  id : Nat
  name : String
  email : String
  department : String
deriving DecidableEq, Repr

/-- A president-officer profile row of the `admins` collection
(`LandingPage.jsx` insert: id, name, email, department, is_approved). -/
structure AdminRow where
  id : Nat
  name : String
  email : String
  department : String
  is_approved : Bool
deriving DecidableEq, Repr

/-- A student/user profile row of the `users` collection
(`LandingPage.jsx` insert plus the approval columns written by
`SuperAdminDashboard.jsx`). -/
structure UserRow where
  id : Nat
  name : String
  email : String
  role : String
  department : String
  is_approved : Bool
  approved_by : Option Nat
  approved_at : Option Nat
deriving DecidableEq, Repr

/-- A row of the `posts` collection (`AdminPanel` insert in the admin
panel page). `event_date` is an optional string, `none` modelling SQL null. -/
structure PostRow where
  id : Nat
  title : String
  content : String
  type : String
  event_date : Option String
  department : String
  author_id : Nat
  status : String
deriving DecidableEq, Repr

/-- A row of the `comments` collection (post-detail page insert). -/
structure CommentRow where
  id : Nat
  post_id : Nat
  user_id : Nat
  content : String
deriving DecidableEq, Repr

/-- The whole remote state: the identity-provider accounts (`auth.users`,
modelled by their ids) and the five application collections. -/
structure DB where
  accounts : List Nat
  super_admins : List SuperAdminRow
  admins : List AdminRow
  users : List UserRow
  posts : List PostRow
  comments : List CommentRow
deriving DecidableEq, Repr

/-- Model of a supabase single-row query (`.single()` / `.maybeSingle()`):
the row when the filter matches exactly one row, otherwise nothing.  The
pages read only the `data` field, so the zero-row case and the
multiple-row error case are both observed as absence. -/
def filterOne {α : Type} (p : α → Bool) (l : List α) : Option α :=
  match l.filter p with
  | [a] => some a
  | _ => none

/-- Where a matching-row update lands: `update({...}).eq(col, v)` rewrites
every row matching the filter and keeps the rest. -/
def updateWhere {α : Type} (p : α → Bool) (f : α → α) : List α → List α
  | [] => []
  | a :: t => (if p a then f a else a) :: updateWhere p f t

/-! ## Session establishment (`handleLogin`, LandingPage.jsx 57-142) -/

/-- The observable outcome of `handleLogin` after a successful
authentication: the route taken, or the sign-out-and-report branch. -/
inductive LoginResult where
  | superAdminDashboard
  | adminDashboard
  | userDashboard
  | pendingApproval
  | accountNotFound
deriving DecidableEq, Repr

/-- `handleLogin` after `signInWithPassword` succeeded for account `uid`:
probe `super_admins`, then `admins` (approval-gated), then `users`
(approval-gated), else report the account as missing. -/
def handleLogin (db : DB) (uid : Nat) : LoginResult :=
  match filterOne (fun r => r.id == uid) db.super_admins with
  | some _ => .superAdminDashboard
  | none =>
    match filterOne (fun r => r.id == uid) db.admins with
    | some a => if a.is_approved then .adminDashboard else .pendingApproval
    | none =>
      match filterOne (fun r => r.id == uid) db.users with
      | some u => if u.is_approved then .userDashboard else .pendingApproval
      | none => .accountNotFound

/-- In the pending-approval and account-not-found branches the page calls
`supabase.auth.signOut()` before reporting; in the admit branches the
session is kept. -/
def sessionTerminated : LoginResult → Bool
  | .pendingApproval => true
  | .accountNotFound => true
  | _ => false

/-! ## Registration (`handleSignup`, LandingPage.jsx 144-313) -/

/-- The signup form state. -/
structure SignupData where
  name : String
  email : String
  password : String
  confirmPassword : String
  role : String
  department : String
deriving DecidableEq, Repr

/-- Model of the JavaScript `String.prototype.toLowerCase` used by the
email-convention checks, over `Char.toLower`. -/
def jsToLower (s : String) : String :=
  (s.data.map Char.toLower).asString

/-- Outcome taxonomy of `handleSignup` as reported to the caller. -/
inductive SignupResult where
  | validationError
  | emailConventionError
  | duplicateRoleError
  | ok
deriving DecidableEq, Repr

/-- `handleSignup`: empty-field / password checks, the per-role email
convention and duplicate-slot checks, then account creation (`signUp`,
modelled by appending `newId` to `accounts`) followed by exactly one
profile insert into the collection matching the role.  The source runs
the super-admin and admin guard blocks in sequence before creating the
account; with the role fixed the flattened chain below is the same
control flow. -/
def handleSignup (db : DB) (s : SignupData) (newId : Nat) : SignupResult × DB :=
  if s.name = "" ∨ s.email = "" ∨ s.password = "" ∨ s.confirmPassword = "" then
    (.validationError, db)
  else if s.password ≠ s.confirmPassword then
    (.validationError, db)
  else if s.password.length < 6 then
    (.validationError, db)
  else if s.role = "super_admin" ∧ jsToLower s.email ≠ jsToLower s.department ++ "-head@spc.edu" then
    (.emailConventionError, db)
  else if s.role = "super_admin" ∧ (filterOne (fun r => r.department == s.department) db.super_admins).isSome then
    (.duplicateRoleError, db)
  else if s.role = "admin" ∧ jsToLower s.email ≠ jsToLower s.department ++ "-admin@spc.edu" then
    (.emailConventionError, db)
  else if s.role = "admin" ∧ (filterOne (fun a => a.department == s.department) db.admins).isSome then
    (.duplicateRoleError, db)
  else if s.role = "super_admin" then
    (.ok, { db with
            accounts := db.accounts ++ [newId],
            super_admins := db.super_admins ++
              [{ id := newId, name := s.name, email := s.email, department := s.department }] })
  else if s.role = "admin" then
    (.ok, { db with
            accounts := db.accounts ++ [newId],
            admins := db.admins ++
              [{ id := newId, name := s.name, email := s.email,
                 department := s.department, is_approved := false }] })
  else
    (.ok, { db with
            accounts := db.accounts ++ [newId],
            users := db.users ++
              [{ id := newId, name := s.name, email := s.email, role := "user",
                 department := s.department, is_approved := false,
                 approved_by := none, approved_at := none }] })

/-! ## Approval workflow (`SuperAdminDashboard.jsx`) -/

/-- `fetchUsers`, pending half: `users` rows of the given department with
`is_approved = false` (SuperAdminDashboard.jsx 61-66). -/
def fetchPendingUsers (db : DB) (department : String) : List UserRow :=
  db.users.filter (fun u => u.department == department && u.is_approved == false)

/-- `fetchUsers`, approved half: `users` rows of the given department with
`is_approved = true` (SuperAdminDashboard.jsx 71-76). -/
def fetchApprovedUsers (db : DB) (department : String) : List UserRow :=
  db.users.filter (fun u => u.department == department && u.is_approved == true)

/-- The column values written by `handleApprove` to a matching row. -/
def approveRow (superAdminId : Nat) (now : Nat) (u : UserRow) : UserRow :=
  { u with is_approved := true, approved_by := some superAdminId, approved_at := some now }

/-- `handleApprove` (SuperAdminDashboard.jsx 90-111): update the `users`
rows with the given id, setting `is_approved`, `approved_by` (the calling
super-admin id) and `approved_at` (the current time).  The update carries
no department condition. -/
def handleApprove (db : DB) (superAdminId : Nat) (now : Nat) (userId : Nat) : DB :=
  { db with users := updateWhere (fun u => u.id == userId) (approveRow superAdminId now) db.users }

/-- Possible observable outcomes of a rejection.  The source reports
success whenever the delete call returns no error; it has no branch that
distinguishes a missing row, so `notFound` is never produced. -/
inductive RejectOutcome where
  | success
  | notFound
  | storeError
deriving DecidableEq, Repr

/-- `handleReject` (SuperAdminDashboard.jsx 113-137): delete the `users`
rows with the given id; per the comment in the source the identity
account is removed by the storage-level CASCADE, modelled by filtering
`accounts` as well.  Absent a store error the page reports success. -/
def handleReject (db : DB) (userId : Nat) : RejectOutcome × DB :=
  (.success,
   { db with users := db.users.filter (fun u => u.id != userId),
             accounts := db.accounts.filter (fun a => a != userId) })

/-- The column values written by `handleRevokeApproval` to a matching row. -/
def revokeRow (u : UserRow) : UserRow :=
  { u with is_approved := false, approved_by := none, approved_at := none }

/-- `handleRevokeApproval` (SuperAdminDashboard.jsx 139-166): update the
`users` rows with the given id, clearing the three approval columns.
No department condition. -/
def handleRevokeApproval (db : DB) (userId : Nat) : DB :=
  { db with users := updateWhere (fun u => u.id == userId) revokeRow db.users }

/-! ## Admin panel gate (`checkAuth` of the admin panel page) -/

/-- The route taken by the admin panel gate. -/
inductive PanelOutcome where
  | admitted (profile : UserRow)
  | redirectHome
  | redirectDashboard
deriving DecidableEq, Repr

/-- `checkAuth` of the admin panel: no session sends the visitor home; a
failing `users.single()` lookup is caught and also sends them home; a
profile whose `role` is not the string `admin` is sent to the dashboard;
only a `users` row with `role = admin` is admitted. -/
def adminPanelCheckAuth (db : DB) (session : Option Nat) : PanelOutcome :=
  match session with
  | none => .redirectHome
  | some uid =>
    match filterOne (fun u => u.id == uid) db.users with
    | none => .redirectHome
    | some profile =>
      if profile.role == "admin" then .admitted profile else .redirectDashboard

/-- Whether the gate admitted the visitor to the post-management panel. -/
def isAdmitted : PanelOutcome → Bool
  | .admitted _ => true
  | _ => false

/-! ## Post creation and editing (admin panel page) -/

/-- The create/edit post form state; `event_date` is the raw input string,
empty when the field was left blank. -/
structure PostForm where
  title : String
  content : String
  type : String
  event_date : String
deriving DecidableEq, Repr

/-- Outcome of `handleCreatePost` / `handleEditPost`. -/
inductive PostResult where
  | validationError
  | ok
deriving DecidableEq, Repr

/-- `handleCreatePost`: title and content required; an event requires a
non-empty event date; on success one row is inserted with
`event_date = null` unless the type is `event`, and `status = active`. -/
def handleCreatePost (db : DB) (authorProfile : UserRow) (f : PostForm) (newId : Nat) :
    PostResult × DB :=
  if f.title = "" ∨ f.content = "" then (.validationError, db)
  else if f.type = "event" ∧ f.event_date = "" then (.validationError, db)
  else
    (.ok, { db with posts := db.posts ++
      [{ id := newId, title := f.title, content := f.content, type := f.type,
         event_date := if f.type = "event" then some f.event_date else none,
         department := authorProfile.department, author_id := authorProfile.id,
         status := "active" }] })

/-- The column values written by `handleEditPost` to the edited row. -/
def editRow (f : PostForm) (p : PostRow) : PostRow :=
  { p with title := f.title, content := f.content, type := f.type,
           event_date := if f.type = "event" then some f.event_date else none }

/-- `handleEditPost`: the same validation, then an update of the edited
post row rewriting title, content, type and event date (null unless the
type is `event`). -/
def handleEditPost (db : DB) (editingPostId : Nat) (f : PostForm) : PostResult × DB :=
  if f.title = "" ∨ f.content = "" then (.validationError, db)
  else if f.type = "event" ∧ f.event_date = "" then (.validationError, db)
  else
    (.ok, { db with posts := updateWhere (fun p => p.id == editingPostId) (editRow f) db.posts })

/-! ## Feeds -/

/-- The dashboard general feed query: every post with `status = active`,
for every viewer; there is no department condition tied to the viewer. -/
def dashboardFetchPosts (db : DB) : List PostRow :=
  db.posts.filter (fun p => p.status == "active")

/-- The client-side department filter of the dashboard: the selection is
chosen by the viewer and defaults to `all`, which shows everything. -/
def dashboardFilterPosts (posts : List PostRow) (selectedDepartment : String) : List PostRow :=
  if selectedDepartment = "all" then posts
  else posts.filter (fun p => p.department == selectedDepartment)

/-- The archive feed query (Archive.jsx 100-125): archived posts, narrowed
to own posts for an admin viewer and to the viewer department for a user
viewer; super-admins get everything. -/
def archiveFetchPosts (db : DB) (userType : String) (profileId : Nat)
    (profileDepartment : String) : List PostRow :=
  let base := db.posts.filter (fun p => p.status == "archived")
  if userType = "admin" then base.filter (fun p => p.author_id == profileId)
  else if userType = "user" then base.filter (fun p => p.department == profileDepartment)
  else base

/-! ## Comments (post-detail page) -/

/-- Strip leading and trailing whitespace from a character list. -/
def trimChars (l : List Char) : List Char :=
  ((l.dropWhile Char.isWhitespace).reverse.dropWhile Char.isWhitespace).reverse

/-- Model of the JavaScript `String.prototype.trim` used by the comment
form, over the ASCII whitespace of `Char.isWhitespace`. -/
def jsTrim (s : String) : String :=
  (trimChars s.data).asString

/-- Outcome of `handleAddComment`. -/
inductive CommentResult where
  | emptyError
  | ok
deriving DecidableEq, Repr

/-- `handleAddComment`: a submission whose trimmed content is empty is
rejected before any insert; otherwise one comment row is inserted whose
content is the trimmed input. -/
def handleAddComment (db : DB) (postId : Nat) (commenterId : Nat)
    (newComment : String) (newId : Nat) : CommentResult × DB :=
  if jsTrim newComment = "" then (.emptyError, db)
  else
    (.ok, { db with comments := db.comments ++
      [{ id := newId, post_id := postId, user_id := commenterId,
         content := jsTrim newComment }] })

/-! ## Sample data for concrete instances -/

/-- A CCS program head. -/
def saCCS : SuperAdminRow :=
  { id := 1, name := "Head CCS", email := "ccs-head@spc.edu", department := "CCS" }

/-- A pending CED student. -/
def studentCED : UserRow :=
  { id := 2, name := "Student Two", email := "s2@spc.edu", role := "user",
    department := "CED", is_approved := false, approved_by := none, approved_at := none }

/-- An approved CCS student viewer. -/
def viewerCCS : UserRow :=
  { id := 3, name := "Viewer Three", email := "v3@spc.edu", role := "user",
    department := "CCS", is_approved := true, approved_by := some 1, approved_at := some 1 }

/-- An active CED announcement post. -/
def postCED : PostRow :=
  { id := 10, title := "Seminar", content := "Details", type := "announcement",
    event_date := none, department := "CED", author_id := 5, status := "active" }

/-- State with a CCS program head and a pending CED student. -/
def dbCross : DB :=
  { accounts := [1, 2], super_admins := [saCCS], admins := [], users := [studentCED],
    posts := [], comments := [] }

/-- State with a CCS user viewer and an active CED post. -/
def dbFeed : DB :=
  { accounts := [3], super_admins := [], admins := [], users := [viewerCCS],
    posts := [postCED], comments := [] }

/-- `dbCross` with a different `posts` collection but identical `users`. -/
def dbCrossB : DB :=
  { dbCross with posts := [postCED] }

/-- A `users` row whose role column is the string `admin`. -/
def adminUserCCS : UserRow :=
  { id := 4, name := "Officer Four", email := "ccs-admin@spc.edu", role := "admin",
    department := "CCS", is_approved := true, approved_by := some 1, approved_at := some 1 }

/-- State whose `users` collection holds an admin-role row. -/
def dbPanel : DB :=
  { accounts := [4], super_admins := [], admins := [], users := [adminUserCCS],
    posts := [], comments := [] }

/-- A well-formed admin registration for the CCS department. -/
def sAdminCCS : SignupData :=
  { name := "Alice", email := "ccs-admin@spc.edu", password := "secret1",
    confirmPassword := "secret1", role := "admin", department := "CCS" }

/-! ## Helper lemmas about the query model -/

theorem filter_key_eq_nil {α : Type} (key : α → Nat) (uid : Nat) (l : List α)
    (h : ∀ a ∈ l, key a ≠ uid) :
    l.filter (fun r => key r == uid) = [] := by
  rw [List.filter_eq_nil_iff]
  intro a ha
  simpa using h a ha

theorem filter_key_eq_singleton {α : Type} (key : α → Nat) (uid : Nat) (l : List α) (a : α)
    (hn : (l.map key).Nodup) (ha : a ∈ l) (hk : key a = uid) :
    l.filter (fun r => key r == uid) = [a] := by
  induction l with
  | nil => cases ha
  | cons b t ih =>
    rw [List.map_cons, List.nodup_cons] at hn
    rcases List.mem_cons.mp ha with hab | hat
    · subst hab
      have hfb : (key a == uid) = true := beq_iff_eq.mpr hk
      have ht : t.filter (fun r => key r == uid) = [] := by
        apply filter_key_eq_nil
        intro c hc hceq
        apply hn.1
        have hkk : key a = key c := by rw [hk, hceq]
        rw [hkk]
        exact List.mem_map_of_mem key hc
      simp [List.filter_cons, hfb, ht]
    · have hb : key b ≠ uid := by
        intro hbe
        apply hn.1
        have hkk : key b = key a := by rw [hbe, hk]
        rw [hkk]
        exact List.mem_map_of_mem key hat
      have hfb : (key b == uid) = false := by simpa using hb
      simp only [List.filter_cons, hfb, if_false, Bool.false_eq_true]
      exact ih hn.2 hat

theorem filterOne_key_some {α : Type} (key : α → Nat) (uid : Nat) (l : List α) (a : α)
    (hn : (l.map key).Nodup) (ha : a ∈ l) (hk : key a = uid) :
    filterOne (fun r => key r == uid) l = some a := by
  unfold filterOne
  rw [filter_key_eq_singleton key uid l a hn ha hk]

theorem filterOne_key_none {α : Type} (key : α → Nat) (uid : Nat) (l : List α)
    (h : ∀ a ∈ l, key a ≠ uid) :
    filterOne (fun r => key r == uid) l = none := by
  unfold filterOne
  rw [filter_key_eq_nil key uid l h]

theorem filterOne_mem {α : Type} {p : α → Bool} {l : List α} {a : α}
    (h : filterOne p l = some a) : a ∈ l ∧ p a = true := by
  have hmem : a ∈ l.filter p := by
    unfold filterOne at h
    split at h
    next b heq =>
      injection h with h2
      subst h2
      rw [heq]
      exact List.mem_singleton_self b
    next => simp at h
  exact ⟨(List.mem_filter.mp hmem).1, (List.mem_filter.mp hmem).2⟩

theorem filterOne_isSome_of_unique {α : Type} {p : α → Bool} {l : List α} {a : α}
    (hlen : (l.filter p).length ≤ 1) (ha : a ∈ l) (hpa : p a = true) :
    (filterOne p l).isSome = true := by
  have hmem : a ∈ l.filter p := List.mem_filter.mpr ⟨ha, hpa⟩
  unfold filterOne
  cases hf : l.filter p with
  | nil =>
    rw [hf] at hmem
    cases hmem
  | cons b t =>
    cases t with
    | nil => rfl
    | cons c t2 =>
      rw [hf] at hlen
      simp at hlen

theorem filterOne_none_of_all {α : Type} {p : α → Bool} {l : List α}
    (h : ∀ a ∈ l, p a = false) : filterOne p l = none := by
  have hnil : l.filter p = [] := by
    rw [List.filter_eq_nil_iff]
    intro a ha
    simp [h a ha]
  unfold filterOne
  rw [hnil]

theorem mem_updateWhere_self {α : Type} (p : α → Bool) (f : α → α) (l : List α) (a : α)
    (ha : a ∈ l) : (if p a then f a else a) ∈ updateWhere p f l := by
  induction l with
  | nil => cases ha
  | cons b t ih =>
    simp only [updateWhere]
    rcases List.mem_cons.mp ha with hab | hat
    · subst hab
      exact List.mem_cons_self _ _
    · exact List.mem_cons_of_mem _ (ih hat)

theorem mem_updateWhere {α : Type} {p : α → Bool} {f : α → α} {l : List α} {q : α}
    (h : q ∈ updateWhere p f l) : ∃ a ∈ l, q = if p a then f a else a := by
  induction l with
  | nil => simp [updateWhere] at h
  | cons b t ih =>
    simp only [updateWhere] at h
    rcases List.mem_cons.mp h with h1 | h1
    · exact ⟨b, List.mem_cons_self b t, h1⟩
    · obtain ⟨a, hat, hq⟩ := ih h1
      exact ⟨a, List.mem_cons_of_mem b hat, hq⟩

theorem approve_revoke_users (said now uid : Nat) (l : List UserRow)
    (h : ∀ u ∈ l, u.id = uid →
        u.is_approved = false ∧ u.approved_by = none ∧ u.approved_at = none) :
    updateWhere (fun u => u.id == uid) revokeRow
      (updateWhere (fun u => u.id == uid) (approveRow said now) l) = l := by
  induction l with
  | nil => rfl
  | cons b t ih =>
    have htail : updateWhere (fun u => u.id == uid) revokeRow
        (updateWhere (fun u => u.id == uid) (approveRow said now) t) = t :=
      ih (fun u hu => h u (List.mem_cons_of_mem b hu))
    by_cases hb : b.id = uid
    · have hbeq : (b.id == uid) = true := beq_iff_eq.mpr hb
      have hbeq2 : ((approveRow said now b).id == uid) = true := by
        simp [approveRow, hb]
      have hrow : revokeRow (approveRow said now b) = b := by
        obtain ⟨h1, h2, h3⟩ := h b (List.mem_cons_self b t) hb
        cases b
        simp only [approveRow, revokeRow]
        simp_all
      simp [updateWhere, hbeq, hbeq2, hrow, htail]
    · have hbeq : (b.id == uid) = false := by simpa using hb
      simp [updateWhere, hbeq, htail]

/-! ## C1 — session establishment resolves the tier by strict priority -/

/-- C1: for a freshly authenticated id, `handleLogin` resolves the tier in
strict priority order: a `super_admins` row admits unconditionally; else
an `admins` row admits when approved and terminates the session reporting
pending approval when not; else a `users` row gets the same branching;
and when no collection holds the id the session is terminated and the
account reported as not found. -/
theorem c1_session_tier_resolution (db : DB) (uid : Nat)
    (hns : (db.super_admins.map SuperAdminRow.id).Nodup)
    (hna : (db.admins.map AdminRow.id).Nodup)
    (hnu : (db.users.map UserRow.id).Nodup) :
    (∀ r ∈ db.super_admins, r.id = uid →
        handleLogin db uid = .superAdminDashboard ∧
        sessionTerminated (handleLogin db uid) = false) ∧
    ((∀ r ∈ db.super_admins, r.id ≠ uid) → ∀ a ∈ db.admins, a.id = uid →
        (a.is_approved = false →
            handleLogin db uid = .pendingApproval ∧
            sessionTerminated (handleLogin db uid) = true) ∧
        (a.is_approved = true →
            handleLogin db uid = .adminDashboard ∧
            sessionTerminated (handleLogin db uid) = false)) ∧
    ((∀ r ∈ db.super_admins, r.id ≠ uid) → (∀ a ∈ db.admins, a.id ≠ uid) →
        ∀ u ∈ db.users, u.id = uid →
        (u.is_approved = false →
            handleLogin db uid = .pendingApproval ∧
            sessionTerminated (handleLogin db uid) = true) ∧
        (u.is_approved = true →
            handleLogin db uid = .userDashboard ∧
            sessionTerminated (handleLogin db uid) = false)) ∧
    ((∀ r ∈ db.super_admins, r.id ≠ uid) → (∀ a ∈ db.admins, a.id ≠ uid) →
        (∀ u ∈ db.users, u.id ≠ uid) →
        handleLogin db uid = .accountNotFound ∧
        sessionTerminated (handleLogin db uid) = true) := by
  refine ⟨?_, ?_, ?_, ?_⟩
  · intro r hr hrid
    have hmain : handleLogin db uid = .superAdminDashboard := by
      unfold handleLogin
      rw [filterOne_key_some SuperAdminRow.id uid db.super_admins r hns hr hrid]
    exact ⟨hmain, by rw [hmain]; rfl⟩
  · intro hno a hamem haid
    have hsa := filterOne_key_none SuperAdminRow.id uid db.super_admins hno
    have had := filterOne_key_some AdminRow.id uid db.admins a hna hamem haid
    constructor
    · intro hap
      have hmain : handleLogin db uid = .pendingApproval := by
        unfold handleLogin
        rw [hsa, had]
        simp [hap]
      exact ⟨hmain, by rw [hmain]; rfl⟩
    · intro hap
      have hmain : handleLogin db uid = .adminDashboard := by
        unfold handleLogin
        rw [hsa, had]
        simp [hap]
      exact ⟨hmain, by rw [hmain]; rfl⟩
  · intro hno hnoa u humem huid
    have hsa := filterOne_key_none SuperAdminRow.id uid db.super_admins hno
    have hadn := filterOne_key_none AdminRow.id uid db.admins hnoa
    have hus := filterOne_key_some UserRow.id uid db.users u hnu humem huid
    constructor
    · intro hap
      have hmain : handleLogin db uid = .pendingApproval := by
        unfold handleLogin
        rw [hsa, hadn, hus]
        simp [hap]
      exact ⟨hmain, by rw [hmain]; rfl⟩
    · intro hap
      have hmain : handleLogin db uid = .userDashboard := by
        unfold handleLogin
        rw [hsa, hadn, hus]
        simp [hap]
      exact ⟨hmain, by rw [hmain]; rfl⟩
  · intro hno hnoa hnou
    have hsa := filterOne_key_none SuperAdminRow.id uid db.super_admins hno
    have hadn := filterOne_key_none AdminRow.id uid db.admins hnoa
    have husn := filterOne_key_none UserRow.id uid db.users hnou
    have hmain : handleLogin db uid = .accountNotFound := by
      unfold handleLogin
      rw [hsa, hadn, husn]
    exact ⟨hmain, by rw [hmain]; rfl⟩

/-- C1 witness: on the concrete state `dbCross` the program head with id 1
is admitted to the program-head dashboard with the session kept. -/
theorem c1_witness :
    handleLogin dbCross 1 = .superAdminDashboard ∧
    sessionTerminated (handleLogin dbCross 1) = false :=
  (c1_session_tier_resolution dbCross 1 (by decide) (by decide) (by decide)).1
    saCCS (by decide) (by decide)

/-! ## C3 — approve followed by revoke is a round trip -/

/-- C3: on any state whose rows with the target id are in the pre-approval
state (`is_approved = false`, `approved_by = null`, `approved_at = null`),
`handleApprove` followed by `handleRevokeApproval` restores the state
exactly. -/
theorem c3_approve_revoke_roundtrip (db : DB) (said now uid : Nat)
    (h : ∀ u ∈ db.users, u.id = uid →
        u.is_approved = false ∧ u.approved_by = none ∧ u.approved_at = none) :
    handleRevokeApproval (handleApprove db said now uid) uid = db := by
  simp only [handleApprove, handleRevokeApproval]
  rw [approve_revoke_users said now uid db.users h]

/-- C3 witness: approving then revoking the pending student with id 2 on
the concrete state `dbCross` restores `dbCross` exactly. -/
theorem c3_witness :
    handleRevokeApproval (handleApprove dbCross 1 100 2) 2 = dbCross :=
  c3_approve_revoke_roundtrip dbCross 1 100 2 (by decide)

/-! ## C2 — admin registration contract -/

/-- C2: for an admin-role registration that passes the generic field
validation, on a state satisfying the one-admin-per-department invariant:
a lower-cased email differing from `department-admin@spc.edu` fails with
the email-convention error; an existing AdminProfile for the department
fails with the duplicate-role error; otherwise the account is created and
exactly one pending AdminProfile row is inserted, everything else
untouched. -/
theorem c2_admin_registration (db : DB) (s : SignupData) (newId : Nat)
    (hrole : s.role = "admin")
    (hname : s.name ≠ "") (hemail : s.email ≠ "")
    (hpw : s.password ≠ "") (hcpw : s.confirmPassword ≠ "")
    (hmatch : s.password = s.confirmPassword)
    (hlen : ¬ s.password.length < 6)
    (hinv : (db.admins.filter (fun a => a.department == s.department)).length ≤ 1) :
    (jsToLower s.email ≠ jsToLower s.department ++ "-admin@spc.edu" →
        handleSignup db s newId = (.emailConventionError, db)) ∧
    (jsToLower s.email = jsToLower s.department ++ "-admin@spc.edu" →
        ((∃ a ∈ db.admins, a.department = s.department) →
            handleSignup db s newId = (.duplicateRoleError, db)) ∧
        ((∀ a ∈ db.admins, a.department ≠ s.department) →
            handleSignup db s newId =
              (.ok, { db with
                      accounts := db.accounts ++ [newId],
                      admins := db.admins ++
                        [{ id := newId, name := s.name, email := s.email,
                           department := s.department, is_approved := false }] }))) := by
  have hsuper : s.role ≠ "super_admin" := by rw [hrole]; decide
  constructor
  · intro hconv
    unfold handleSignup
    rw [if_neg (by simp [hname, hemail, hpw, hcpw]), if_neg (by simp [hmatch]),
        if_neg hlen, if_neg (by simp [hsuper]), if_neg (by simp [hsuper]),
        if_pos ⟨hrole, hconv⟩]
  · intro hconv
    constructor
    · rintro ⟨a, hmem, hdep⟩
      have hdup : (filterOne (fun a => a.department == s.department) db.admins).isSome = true :=
        filterOne_isSome_of_unique hinv hmem (beq_iff_eq.mpr hdep)
      unfold handleSignup
      rw [if_neg (by simp [hname, hemail, hpw, hcpw]), if_neg (by simp [hmatch]),
          if_neg hlen, if_neg (by simp [hsuper]), if_neg (by simp [hsuper]),
          if_neg (by simp [hconv]), if_pos ⟨hrole, hdup⟩]
    · intro hno
      have hdup : filterOne (fun a => a.department == s.department) db.admins = none := by
        apply filterOne_none_of_all
        intro a ha
        simpa using hno a ha
      unfold handleSignup
      rw [if_neg (by simp [hname, hemail, hpw, hcpw]), if_neg (by simp [hmatch]),
          if_neg hlen, if_neg (by simp [hsuper]), if_neg (by simp [hsuper]),
          if_neg (by simp [hconv]), if_neg (by simp [hdup]), if_neg (by simp [hsuper]),
          if_pos hrole]

/-- C2 witness: registering `sAdminCCS` on a state with no CCS admin
creates the account and inserts one pending CCS AdminProfile. -/
theorem c2_witness :
    handleSignup dbFeed sAdminCCS 7 =
      (.ok, { dbFeed with
              accounts := dbFeed.accounts ++ [7],
              admins := dbFeed.admins ++
                [{ id := 7, name := "Alice", email := "ccs-admin@spc.edu",
                   department := "CCS", is_approved := false }] }) := by
  have h := c2_admin_registration dbFeed sAdminCCS 7 rfl (by decide) (by decide)
    (by decide) (by decide) rfl (by decide) (by decide)
  exact (h.2 (by decide)).2 (by decide)

/-! ## C4 — approval operations carry no department scope check -/

/-- C4 counterexample: the CCS program head (id 1) approving the
CED-department student (id 2) succeeds and mutates the target row, so a
cross-department approval neither fails with a scope error nor leaves
the state unchanged. -/
theorem c4_cross_department_counterexample :
    saCCS.department ≠ studentCED.department ∧
    handleApprove dbCross saCCS.id 100 studentCED.id ≠ dbCross ∧
    (handleApprove dbCross saCCS.id 100 studentCED.id).users =
      [{ studentCED with
         is_approved := true, approved_by := some saCCS.id,
         approved_at := some 100 }] := by
  refine ⟨by decide, by decide, by decide⟩

/-- C4 (amended): the approve/revoke/reject operations carry no department
condition at all — they mutate any `users` row with the target id, for a
super-admin of any department, cross-department targets included; the
dashboard restricts by department only in its listing, which returns
rows of the super-admin department alone. -/
theorem c4_no_scope_check (db : DB) (said now uid : Nat) (u : UserRow) (d : String)
    (hu : u ∈ db.users) (hid : u.id = uid) :
    approveRow said now u ∈ (handleApprove db said now uid).users ∧
    revokeRow u ∈ (handleRevokeApproval db uid).users ∧
    (∀ v ∈ ((handleReject db uid).2).users, v.id ≠ uid) ∧
    (∀ v ∈ fetchPendingUsers db d, v.department = d) ∧
    (∀ v ∈ fetchApprovedUsers db d, v.department = d) := by
  have hbeq : (u.id == uid) = true := beq_iff_eq.mpr hid
  refine ⟨?_, ?_, ?_, ?_, ?_⟩
  · have h := mem_updateWhere_self (fun u => u.id == uid) (approveRow said now) db.users u hu
    simp only [hbeq, if_true] at h
    exact h
  · have h := mem_updateWhere_self (fun u => u.id == uid) revokeRow db.users u hu
    simp only [hbeq, if_true] at h
    exact h
  · intro v hv
    simpa using (List.mem_filter.mp hv).2
  · intro v hv
    have h := (List.mem_filter.mp hv).2
    exact beq_iff_eq.mp ((Bool.and_eq_true _ _).mp h).1
  · intro v hv
    have h := (List.mem_filter.mp hv).2
    exact beq_iff_eq.mp ((Bool.and_eq_true _ _).mp h).1

/-- C4 witness: on `dbCross` the cross-department approval and revocation
by the CCS head mutate the CED student row. -/
theorem c4_witness :
    approveRow 1 100 studentCED ∈ (handleApprove dbCross 1 100 2).users ∧
    revokeRow studentCED ∈ (handleRevokeApproval dbCross 2).users := by
  have h := c4_no_scope_check dbCross 1 100 2 studentCED "CCS" (by decide) (by decide)
  exact ⟨h.1, h.2.1⟩

/-! ## C5 — eventDate non-null iff the type is event -/

/-- C5: an event with a blank date is rejected by creation and editing
before any write (the state is returned unchanged); every row written by
an accepted creation or edit has a non-null event date exactly when its
type is `event` — in particular an accepted announcement is stored with
a null event date. -/
theorem c5_event_date_iff (db : DB) (prof : UserRow) (f : PostForm) (newId pid : Nat) :
    (f.type = "event" → f.event_date = "" →
        handleCreatePost db prof f newId = (.validationError, db) ∧
        handleEditPost db pid f = (.validationError, db)) ∧
    ((handleCreatePost db prof f newId).1 = .ok →
        ∀ p ∈ (handleCreatePost db prof f newId).2.posts,
          p ∈ db.posts ∨ (p.event_date.isSome = true ↔ p.type = "event")) ∧
    ((handleEditPost db pid f).1 = .ok →
        ∀ p ∈ (handleEditPost db pid f).2.posts,
          p ∈ db.posts ∨ (p.event_date.isSome = true ↔ p.type = "event")) := by
  refine ⟨?_, ?_, ?_⟩
  · intro hev hdate
    constructor
    · unfold handleCreatePost
      by_cases h1 : f.title = "" ∨ f.content = ""
      · rw [if_pos h1]
      · rw [if_neg h1, if_pos ⟨hev, hdate⟩]
    · unfold handleEditPost
      by_cases h1 : f.title = "" ∨ f.content = ""
      · rw [if_pos h1]
      · rw [if_neg h1, if_pos ⟨hev, hdate⟩]
  · intro hok p hp
    unfold handleCreatePost at hok hp
    by_cases h1 : f.title = "" ∨ f.content = ""
    · rw [if_pos h1] at hok
      simp at hok
    · rw [if_neg h1] at hok hp
      by_cases h2 : f.type = "event" ∧ f.event_date = ""
      · rw [if_pos h2] at hok
        simp at hok
      · rw [if_neg h2] at hp
        dsimp only at hp
        rcases List.mem_append.mp hp with h3 | h3
        · exact Or.inl h3
        · right
          have hp2 := List.mem_singleton.mp h3
          subst hp2
          by_cases he : f.type = "event"
          · simp [he]
          · simp [he]
  · intro hok p hp
    unfold handleEditPost at hok hp
    by_cases h1 : f.title = "" ∨ f.content = ""
    · rw [if_pos h1] at hok
      simp at hok
    · rw [if_neg h1] at hok hp
      by_cases h2 : f.type = "event" ∧ f.event_date = ""
      · rw [if_pos h2] at hok
        simp at hok
      · rw [if_neg h2] at hp
        dsimp only at hp
        obtain ⟨a, ha, hq⟩ := mem_updateWhere hp
        by_cases hb : (a.id == pid) = true
        · right
          rw [hq]
          simp only [hb, if_true]
          by_cases he : f.type = "event"
          · simp [editRow, he]
          · simp [editRow, he]
        · left
          rw [hq]
          simp only [hb]
          simpa using ha

/-- C5 witness: a blank-date event is rejected with the state unchanged,
and the row written for an accepted announcement has a null event date. -/
theorem c5_witness :
    handleCreatePost dbFeed viewerCCS { title := "T", content := "C", type := "event", event_date := "" } 11 = (.validationError, dbFeed) ∧
    ({ id := 11, title := "T", content := "C", type := "announcement",
       event_date := none, department := "CCS", author_id := 3,
       status := "active" } ∈ dbFeed.posts ∨
      ((Option.isSome (none : Option String) = true) ↔ ("announcement" : String) = "event")) := by
  have h1 := c5_event_date_iff dbFeed viewerCCS
    { title := "T", content := "C", type := "event", event_date := "" } 11 12
  have h2 := c5_event_date_iff dbFeed viewerCCS
    { title := "T", content := "C", type := "announcement", event_date := "" } 11 12
  refine ⟨(h1.1 rfl rfl).1, ?_⟩
  have h3 := h2.2.1 (by decide)
    { id := 11, title := "T", content := "C", type := "announcement",
      event_date := none, department := "CCS", author_id := 3, status := "active" }
    (by decide)
  exact h3

/-! ## C6 — what a user-tier viewer sees -/

/-- C6 counterexample: the general feed shown to the CCS user viewer of
`dbFeed` (department selection at its default `all`) contains the active
CED post, so the visible set is not restricted to the viewer department. -/
theorem c6_cross_department_feed_counterexample :
    viewerCCS.role = "user" ∧
    postCED ∈ dashboardFilterPosts (dashboardFetchPosts dbFeed) "all" ∧
    postCED.department ≠ viewerCCS.department ∧
    postCED.status = "active" := by
  refine ⟨rfl, by decide, by decide, rfl⟩

/-- C6 (amended): for a user-tier viewer the archive view is restricted to
the viewer department and archived status, but the general feed is not
department-restricted: it consists of the active posts of every
department, and the dashboard department filter is a viewer-chosen
selection whose default `all` keeps everything. -/
theorem c6_visibility (db : DB) (prof : UserRow) (p : PostRow) :
    (p ∈ archiveFetchPosts db "user" prof.id prof.department →
        p.department = prof.department ∧ p.status = "archived") ∧
    (p ∈ dashboardFetchPosts db → p.status = "active") ∧
    (p ∈ db.posts → p.status = "active" → p ∈ dashboardFetchPosts db) ∧
    dashboardFilterPosts (dashboardFetchPosts db) "all" = dashboardFetchPosts db := by
  refine ⟨?_, ?_, ?_, ?_⟩
  · intro hp
    unfold archiveFetchPosts at hp
    rw [if_neg (by decide), if_pos rfl] at hp
    have h1 := List.mem_filter.mp hp
    have h2 := List.mem_filter.mp h1.1
    exact ⟨beq_iff_eq.mp h1.2, beq_iff_eq.mp h2.2⟩
  · intro hp
    exact beq_iff_eq.mp (List.mem_filter.mp hp).2
  · intro hp hs
    exact List.mem_filter.mpr ⟨hp, beq_iff_eq.mpr hs⟩
  · unfold dashboardFilterPosts
    rw [if_pos rfl]

/-- C6 witness: the CED post is in the feed fetched for the CCS viewer of
`dbFeed`, and its status is active. -/
theorem c6_witness :
    postCED ∈ dashboardFetchPosts dbFeed ∧ postCED.status = "active" := by
  have h := c6_visibility dbFeed viewerCCS postCED
  exact ⟨h.2.2.1 (by decide) rfl, h.2.1 (by decide)⟩

/-! ## C7 — rejecting twice -/

/-- C7 counterexample: after rejecting the student with id 2 on `dbCross`,
a second reject of the same id reports success — not a not-found
outcome — and leaves the state unchanged. -/
theorem c7_second_reject_counterexample :
    (handleReject (handleReject dbCross 2).2 2).1 = .success ∧
    (handleReject (handleReject dbCross 2).2 2).1 ≠ .notFound ∧
    (handleReject (handleReject dbCross 2).2 2).2 = (handleReject dbCross 2).2 := by
  refine ⟨rfl, by decide, by decide⟩

/-- C7 (amended): reject removes every `users` row and every account with
the target id (the account removal modelling the cascade documented in
the source); a second reject of the same, now-deleted id does not crash:
it is a benign no-op that reports success — not a distinguished
not-found outcome — and leaves the state unchanged. -/
theorem c7_reject_second_noop (db : DB) (uid : Nat) :
    (∀ u ∈ ((handleReject db uid).2).users, u.id ≠ uid) ∧
    (∀ a ∈ ((handleReject db uid).2).accounts, a ≠ uid) ∧
    handleReject ((handleReject db uid).2) uid = (.success, (handleReject db uid).2) := by
  refine ⟨?_, ?_, ?_⟩
  · intro u hu
    simpa using (List.mem_filter.mp hu).2
  · intro a ha
    simpa using (List.mem_filter.mp ha).2
  · have hu : (db.users.filter (fun u => u.id != uid)).filter (fun u => u.id != uid)
        = db.users.filter (fun u => u.id != uid) :=
      List.filter_eq_self.mpr (fun a ha => (List.mem_filter.mp ha).2)
    have hacc : (db.accounts.filter (fun a => a != uid)).filter (fun a => a != uid)
        = db.accounts.filter (fun a => a != uid) :=
      List.filter_eq_self.mpr (fun a ha => (List.mem_filter.mp ha).2)
    unfold handleReject
    dsimp only
    rw [hu, hacc]

/-- C7 witness: a second reject of id 2 on `dbCross` reports success and
leaves the once-rejected state unchanged. -/
theorem c7_witness :
    handleReject ((handleReject dbCross 2).2) 2 = (.success, (handleReject dbCross 2).2) :=
  (c7_reject_second_noop dbCross 2).2.2

/-! ## C8 — the dashboard touches only the users collection -/

/-- C8: every approval-workflow operation of the super-admin dashboard
reads and mutates only the `users` collection (reject additionally
removes the cascaded account): the `admins` and `super_admins`
collections are returned unchanged by approve, reject and revoke, the
pending/approved listings are a function of `users` alone, and every
`admins` row — in particular a pending admin profile — survives all
three operations, so it can never be approved, revoked or rejected
through this dashboard. -/
theorem c8_frame_users_only (db db2 : DB) (d : String) (said now uid : Nat) :
    ((handleApprove db said now uid).admins = db.admins ∧
     (handleApprove db said now uid).super_admins = db.super_admins) ∧
    (((handleReject db uid).2).admins = db.admins ∧
     ((handleReject db uid).2).super_admins = db.super_admins) ∧
    ((handleRevokeApproval db uid).admins = db.admins ∧
     (handleRevokeApproval db uid).super_admins = db.super_admins) ∧
    (db.users = db2.users →
        fetchPendingUsers db d = fetchPendingUsers db2 d ∧
        fetchApprovedUsers db d = fetchApprovedUsers db2 d) ∧
    (∀ a ∈ db.admins, a ∈ (handleApprove db said now uid).admins ∧
        a ∈ ((handleReject db uid).2).admins ∧
        a ∈ (handleRevokeApproval db uid).admins) := by
  refine ⟨⟨rfl, rfl⟩, ⟨rfl, rfl⟩, ⟨rfl, rfl⟩, ?_, ?_⟩
  · intro h
    unfold fetchPendingUsers fetchApprovedUsers
    rw [h]
    exact ⟨rfl, rfl⟩
  · intro a ha
    exact ⟨ha, ha, ha⟩

/-- C8 witness: on `dbCross` and its posts-variant `dbCrossB` (identical
`users`), the listings agree, and approving leaves `admins` unchanged. -/
theorem c8_witness :
    fetchPendingUsers dbCross "CED" = fetchPendingUsers dbCrossB "CED" ∧
    (handleApprove dbCross 1 100 2).admins = dbCross.admins := by
  have h := c8_frame_users_only dbCross dbCrossB "CED" 1 100 2
  exact ⟨(h.2.2.2.1 rfl).1, h.1.1⟩

/-! ## C9 — the admin panel gate -/

/-- C9: the admin panel admits a session exactly when the `users`
collection holds a row with the session id whose role is `admin`; any
other authenticated session — including one whose id appears only in the
`admins` collection — is redirected away and never reaches the panel. -/
theorem c9_admin_panel_gate (db : DB) (uid : Nat)
    (hnu : (db.users.map UserRow.id).Nodup) :
    isAdmitted (adminPanelCheckAuth db (some uid)) = true ↔
      ∃ u ∈ db.users, u.id = uid ∧ u.role = "admin" := by
  constructor
  · intro h
    unfold adminPanelCheckAuth at h
    dsimp only at h
    cases hf : filterOne (fun u => u.id == uid) db.users with
    | none =>
      rw [hf] at h
      simp [isAdmitted] at h
    | some q =>
      rw [hf] at h
      obtain ⟨hq, hqid⟩ := filterOne_mem hf
      by_cases hrole : (q.role == "admin") = true
      · exact ⟨q, hq, beq_iff_eq.mp hqid, beq_iff_eq.mp hrole⟩
      · simp [isAdmitted, hrole] at h
  · rintro ⟨u, hu, huid, hurole⟩
    unfold adminPanelCheckAuth
    dsimp only
    rw [filterOne_key_some UserRow.id uid db.users u hnu hu huid]
    simp [isAdmitted, hurole]

/-- C9 witness: on `dbPanel` the session of id 4 — a `users` row with role
`admin` — is admitted to the panel. -/
theorem c9_witness :
    isAdmitted (adminPanelCheckAuth dbPanel (some 4)) = true :=
  (c9_admin_panel_gate dbPanel 4 (by decide)).mpr ⟨adminUserCCS, by decide, rfl, rfl⟩

/-! ## C10 — comment trimming -/

theorem trimChars_eq_nil_iff (l : List Char) :
    trimChars l = [] ↔ ∀ c ∈ l, c.isWhitespace := by
  unfold trimChars
  constructor
  · intro h c hc
    rw [List.reverse_eq_nil_iff, List.dropWhile_eq_nil_iff] at h
    have h2 : ∀ x ∈ l.dropWhile Char.isWhitespace, x.isWhitespace := by
      intro x hx
      exact h x (List.mem_reverse.mpr hx)
    have hsplit := List.takeWhile_append_dropWhile Char.isWhitespace l
    rw [← hsplit] at hc
    rcases List.mem_append.mp hc with h3 | h3
    · exact List.mem_takeWhile_imp h3
    · exact h2 c h3
  · intro h
    have hnil : l.dropWhile Char.isWhitespace = [] := List.dropWhile_eq_nil_iff.mpr h
    rw [hnil]
    rfl

theorem jsTrim_eq_empty_iff (s : String) :
    jsTrim s = "" ↔ ∀ c ∈ s.data, c.isWhitespace := by
  unfold jsTrim
  rw [← trimChars_eq_nil_iff]
  constructor
  · intro h
    cases htc : trimChars s.data with
    | nil => rfl
    | cons c t =>
      rw [htc] at h
      have himp : (c :: t) = ([] : List Char) := congrArg String.data h
      simp at himp
  · intro h
    rw [h]
    rfl

/-- C10: a comment submission whose content is empty or whitespace-only is
rejected before any insert with the comment set unchanged; an accepted
submission inserts exactly one comment whose stored content is the
whitespace-trimmed input. -/
theorem c10_comment_trim (db : DB) (pid cid nid : Nat) (input : String) :
    ((∀ c ∈ input.data, c.isWhitespace) →
        handleAddComment db pid cid input nid = (.emptyError, db)) ∧
    (¬ (∀ c ∈ input.data, c.isWhitespace) →
        handleAddComment db pid cid input nid =
          (.ok, { db with comments := db.comments ++
            [{ id := nid, post_id := pid, user_id := cid, content := jsTrim input }] })) := by
  constructor
  · intro h
    unfold handleAddComment
    rw [if_pos ((jsTrim_eq_empty_iff input).mpr h)]
  · intro h
    unfold handleAddComment
    rw [if_neg (fun hc => h ((jsTrim_eq_empty_iff input).mp hc))]

/-- C10 witness: a whitespace-only comment on `dbFeed` is rejected with
the state unchanged, and an accepted comment is stored trimmed. -/
theorem c10_witness :
    handleAddComment dbFeed 10 3 "  " 20 = (.emptyError, dbFeed) ∧
    handleAddComment dbFeed 10 3 " hi " 21 =
      (.ok, { dbFeed with comments := dbFeed.comments ++
        [{ id := 21, post_id := 10, user_id := 3, content := "hi" }] }) := by
  constructor
  · exact (c10_comment_trim dbFeed 10 3 20 "  ").1 (by decide)
  · have h := (c10_comment_trim dbFeed 10 3 21 " hi ").2 (by decide)
    have hj : jsTrim " hi " = "hi" := by decide
    rw [hj] at h
    exact h

end SPC
